import Mathlib

/-!
Verification development for the Cartbutler backend (grocery price-comparison
service).  The definitions below are shallow embeddings of the JavaScript
source: the shopping-results store aggregation (src/endpoints/shopping_results.js,
src/index.js, src/unnamed/part_003, src/unnamed/part_009), the haversine
distance function (src/unnamed/part_009, calculateDistance), the cart
endpoints (src/endpoints/cart.js, src/unnamed/part_007) and the min/max
price computations (src/endpoints/cart.js, src/unnamed/part_000,
src/unnamed/part_007).

Modelling conventions:
* JavaScript numbers used for money and quantities are modelled as Rat / Int;
  prices in the source are plain JS numbers and all claims use decimal values
  that are exact in binary-free rational arithmetic.
* A JS object keyed by integer store ids is modelled as a list of aggregates
  kept strictly sorted by store id: per EcmaScript, Object.values enumerates
  integer-like keys in ascending numeric order, which is exactly what the
  aggregation observes.
* parseInt with a NaN check is modelled by a decimal-digit parser and the
  Number NaN test on a location component by a simple decimal-literal scan;
  both agree with the JS functions on every input used below (canonical
  digit strings and plainly malformed strings).
* Array.prototype.sort with comparator (a, b) => a.total - b.total is, per
  ES2019, a stable sort ascending by total; it is modelled by a stable
  insertion sort.
-/

/-- One row of the product_store table as seen by a cart line: the offering
store's id and that store's price for the product. -/
structure Offer where
  store_id : Nat
  price : Rat
deriving DecidableEq

/-- One cart line as loaded by the cart query: the product id, the line
quantity, and the product's full list of store offers
(products.product_store). -/
structure CartItem where
  product_id : Nat
  quantity : Nat
  offers : List Offer
deriving DecidableEq

/-- An entry pushed onto a store bucket's products array by the aggregation
reduce: product id, that store's price and the line quantity. -/
structure LineEntry where
  product_id : Nat
  price : Rat
  quantity : Nat
deriving DecidableEq

/-- One bucket of the store_products accumulator object: the store id, the
matched line entries in push order, and the running total. -/
structure StoreAgg where
  store_id : Nat
  products : List LineEntry
  total : Rat
deriving DecidableEq

/-- One step of the aggregation reduce body: acc[store_id] is created on first
touch (with products = [] and total = 0, immediately receiving the push and
the += below), otherwise updated in place.  The accumulator list is kept
strictly sorted by store id, matching the ascending integer-key enumeration
order of the JS object. -/
def updateAcc (pid qty : Nat) (off : Offer) : List StoreAgg → List StoreAgg
  | [] => [⟨off.store_id, [⟨pid, off.price, qty⟩], off.price * qty⟩]
  | s :: ss =>
    if off.store_id = s.store_id then
      ⟨s.store_id, s.products ++ [⟨pid, off.price, qty⟩], s.total + off.price * qty⟩ :: ss
    else if off.store_id < s.store_id then
      ⟨off.store_id, [⟨pid, off.price, qty⟩], off.price * qty⟩ :: s :: ss
    else
      s :: updateAcc pid qty off ss

/-- The store_products reduce of the shopping-results handlers: for each cart
line, for each of its product's store offers, push a line entry into that
store's bucket and add price * quantity to the bucket's total
(src/endpoints/shopping_results.js lines 44-65, src/unnamed/part_003 lines
79-105, src/unnamed/part_009 lines 583-607). -/
def store_products (items : List CartItem) : List StoreAgg :=
  items.foldl
    (fun acc it => it.offers.foldl (fun a off => updateAcc it.product_id it.quantity off a) acc)
    []

/-- Lookup of a store bucket by store id in the accumulator
(acc[store_id] access on the JS object). -/
def findStore (t : Nat) (acc : List StoreAgg) : Option StoreAgg :=
  acc.find? (fun a => a.store_id == t)

/-- The total recorded for store t, 0 when the store has no bucket. -/
def totalAt (t : Nat) (acc : List StoreAgg) : Rat :=
  ((findStore t acc).map StoreAgg.total).getD 0

/-- Store t appears in the aggregation output. -/
def memStore (t : Nat) (acc : List StoreAgg) : Prop :=
  ∃ a ∈ acc, a.store_id = t

instance (t : Nat) (acc : List StoreAgg) : Decidable (memStore t acc) := by
  unfold memStore; infer_instance

/-- Whether cart line it has an offer at store t (s offers l, in the claim's
terms). -/
def offersStore (t : Nat) (it : CartItem) : Bool :=
  it.offers.any (fun o => o.store_id == t)

/-- The price of line it at store t: the price of its unique offer with that
store id (0 when there is none).  This is the price(l,s) of the specification
formula. -/
def priceAt (t : Nat) (it : CartItem) : Rat :=
  ((it.offers.find? (fun o => o.store_id == t)).map Offer.price).getD 0

/-- The specification's independently recomputed sum:
sum of price(l,s) * quantity(l) over the cart lines l that s offers. -/
def specTotal (t : Nat) (items : List CartItem) : Rat :=
  (items.filter (fun it => offersStore t it)).foldr
    (fun it r => priceAt t it * (it.quantity : Rat) + r) 0

/-- Stable insertion of a store aggregate into a list already sorted
ascending by total: the new element goes in front of the first element whose
total is not smaller, so earlier input elements stay in front of equal-total
later ones. -/
def insertByTotal (x : StoreAgg) : List StoreAgg → List StoreAgg
  | [] => [x]
  | y :: ys => if y.total < x.total then y :: insertByTotal x ys else x :: y :: ys

/-- The sorted_stores step of the shopping-results handlers:
non_empty_stores.sort((a, b) => a.total - b.total) (src/unnamed/part_003 line
134, src/unnamed/part_009 line 641).  Per ES2019, Array.prototype.sort with
this comparator is a stable sort ascending by total, realised here as a
stable insertion sort. -/
def sorted_stores : List StoreAgg → List StoreAgg
  | [] => []
  | x :: xs => insertByTotal x (sorted_stores xs)

/-- The completeness filter of the part_009 / part_008 pipeline: keep a store
iff every cart product id is contained in the store bucket's matched product
ids (src/unnamed/part_009 lines 612-616). -/
def filtered_stores (items : List CartItem) (aggs : List StoreAgg) : List StoreAgg :=
  aggs.filter (fun st =>
    (items.map (fun it => it.product_id)).all
      (fun pid => (st.products.map (fun p => p.product_id)).contains pid))

/-- The defensive non-empty filter: drop buckets with zero matched lines
(src/unnamed/part_003 line 129, src/unnamed/part_009 line 636). -/
def non_empty_stores (aggs : List StoreAgg) : List StoreAgg :=
  aggs.filter (fun st => decide (0 < st.products.length))

/-- JS Math.atan2 restricted to real (non-NaN) arguments, following the
EcmaScript case analysis on the signs of x and y. -/
noncomputable def atan2 (y x : Real) : Real :=
  if 0 < x then Real.arctan (y / x)
  else if x < 0 then
    (if 0 ≤ y then Real.arctan (y / x) + Real.pi else Real.arctan (y / x) - Real.pi)
  else
    (if 0 < y then Real.pi / 2 else if y < 0 then -(Real.pi / 2) else 0)

/-- The local a of calculateDistance (src/unnamed/part_009 lines 657-659):
sin(dLat/2)^2 + cos(lat1 rad) * cos(lat2 rad) * sin(dLon/2)^2 with
dLat = (lat2-lat1) * pi / 180 and dLon = (lon2-lon1) * pi / 180. -/
noncomputable def hav_a (lat1 lon1 lat2 lon2 : Real) : Real :=
  Real.sin ((lat2 - lat1) * Real.pi / 180 / 2) * Real.sin ((lat2 - lat1) * Real.pi / 180 / 2)
    + Real.cos (lat1 * Real.pi / 180) * Real.cos (lat2 * Real.pi / 180)
      * Real.sin ((lon2 - lon1) * Real.pi / 180 / 2)
      * Real.sin ((lon2 - lon1) * Real.pi / 180 / 2)

/-- The haversine distance function calculateDistance of
src/unnamed/part_009 lines 653-663: R * c with R = 6371 and
c = 2 * atan2(sqrt(a), sqrt(1-a)). -/
noncomputable def calculateDistance (lat1 lon1 lat2 lon2 : Real) : Real :=
  6371 * (2 * atan2 (Real.sqrt (hav_a lat1 lon1 lat2 lon2))
    (Real.sqrt (1 - hav_a lat1 lon1 lat2 lon2)))

/-- One stored cart_items row: the (cart, product) line's product id and its
quantity column (an Int column in the schema, so negative values are
representable). -/
structure CartLineRow where
  product_id : Nat
  quantity : Int
deriving DecidableEq

/-- The persisted state of one user's cart: the cart header's quantity column
(the stored distinct-line count, default 0) and the cart_items rows. -/
structure CartState where
  headerQuantity : Nat
  lines : List CartLineRow
deriving DecidableEq

/-- prisma.cart_items.deleteMany({cart_id, product_id}): remove every row of
this cart with the given product id. -/
def cart_items_deleteMany (pid : Nat) (lines : List CartLineRow) : List CartLineRow :=
  lines.filter (fun l => !(l.product_id == pid))

/-- prisma.cart_items.upsert on the cart_id_product_id unique key: update the
row's quantity to exactly q when a row for the product exists, otherwise
create the row. -/
def cart_items_upsert (pid : Nat) (q : Int) (lines : List CartLineRow) : List CartLineRow :=
  if lines.any (fun l => l.product_id == pid) then
    lines.map (fun l => if l.product_id == pid then { l with quantity := q } else l)
  else
    lines ++ [⟨pid, q⟩]

/-- Outcome of a cart endpoint request: a 400 validation rejection, a 404
not-found, or a 200 response carrying the reloaded cart's line rows. -/
inductive CartResponse where
  | badRequest (msg : String)
  | notFound (msg : String)
  | ok (lines : List CartLineRow)
deriving DecidableEq

/-- The POST /cart handler of src/endpoints/cart.js lines 26-193 (identical in
src/unnamed/part_009 lines 314-481): reject when user_id, product_id or
quantity is missing (the JS test !user_id || !product_id also rejects the
falsy values empty string and 0); 404 when the product id is not in the
products table; then deleteMany on quantity === 0, upsert otherwise; the cart
header's quantity column is never touched; finally reload and answer with the
updated rows.  The user/cart create-if-absent steps do not change an already
existing cart state and are identity on this model.  Returns the response
paired with the new persisted state. -/
def cart_post (user_id : Option String) (product_id : Option Nat) (quantity : Option Int)
    (catalog : List Nat) (s : CartState) : CartResponse × CartState :=
  match user_id, product_id, quantity with
  | some u, some pid, some q =>
    if u == "" || pid == 0 then
      (.badRequest "user_id, product_id, and quantity are required", s)
    else if !(catalog.contains pid) then
      (.notFound "Product not found", s)
    else
      let lines' := if q == 0 then cart_items_deleteMany pid s.lines
                    else cart_items_upsert pid q s.lines
      (.ok lines', { s with lines := lines' })
  | _, _, _ => (.badRequest "user_id, product_id, and quantity are required", s)

/-- The GET /cart handler of src/endpoints/cart.js lines 8-23: reject a
missing (or falsy) user_id, otherwise fetchOrCreateCart and answer with the
cart's line rows. -/
def cart_get (user_id : Option String) (s : CartState) : CartResponse :=
  match user_id with
  | some u => if u == "" then .badRequest "user_id is required" else .ok s.lines
  | none => .badRequest "user_id is required"

/-- updateCartItem of src/unnamed/part_007 lines 147-189: deleteMany on
quantity === 0, upsert otherwise, then recount the cart's rows
(tx.cart_items.count) and persist the count into the cart header's quantity
column. -/
def updateCartItem (pid : Nat) (q : Int) (s : CartState) : CartState :=
  let lines' := if q == 0 then cart_items_deleteMany pid s.lines
                else cart_items_upsert pid q s.lines
  { headerQuantity := lines'.length, lines := lines' }

/-- A JS number as produced by Math.min / Math.max over price lists: a finite
value or one of the two infinities (Math.min() = Infinity,
Math.max() = -Infinity). -/
inductive JsNum where
  | num (x : Rat)
  | posInf
  | negInf
deriving DecidableEq

/-- One fold step of Math.min over a spread price list. -/
def jsMinStep (acc : JsNum) (x : Rat) : JsNum :=
  match acc with
  | .posInf => .num x
  | .negInf => .negInf
  | .num y => .num (min y x)

/-- One fold step of Math.max over a spread price list. -/
def jsMaxStep (acc : JsNum) (x : Rat) : JsNum :=
  match acc with
  | .negInf => .num x
  | .posInf => .posInf
  | .num y => .num (max y x)

/-- Math.min(...prices): folds min starting from Infinity. -/
def jsMin (prices : List Rat) : JsNum :=
  prices.foldl jsMinStep .posInf

/-- Math.max(...prices): folds max starting from -Infinity. -/
def jsMax (prices : List Rat) : JsNum :=
  prices.foldl jsMaxStep .negInf

/-- The offer-price list of a cart snapshot:
cart.cart_items.flatMap(cartItem => cartItem.products.product_store.map(ps => ps.price))
(src/endpoints/cart.js line 149, src/unnamed/part_000 lines 44-46,
src/unnamed/part_007 lines 134-136). -/
def cartPrices (items : List CartItem) : List Rat :=
  (items.map (fun it => it.offers.map Offer.price)).flatten

/-- min_price of the cart.js / part_000 / part_009 snapshot paths:
Math.min(...prices) over the flattened offer-price list. -/
def snapshot_min_price (items : List CartItem) : JsNum :=
  jsMin (cartPrices items)

/-- max_price of the cart.js / part_000 / part_009 snapshot paths:
Math.max(...prices) over the flattened offer-price list. -/
def snapshot_max_price (items : List CartItem) : JsNum :=
  jsMax (cartPrices items)

/-- min_price of getCartWithDetails in src/unnamed/part_007 lines 134-138:
prices.length ? Math.min(...prices) : 0. -/
def part007_min_price (items : List CartItem) : JsNum :=
  if (cartPrices items).length = 0 then .num 0 else jsMin (cartPrices items)

/-- max_price of getCartWithDetails in src/unnamed/part_007 lines 134-138:
prices.length ? Math.max(...prices) : 0. -/
def part007_max_price (items : List CartItem) : JsNum :=
  if (cartPrices items).length = 0 then .num 0 else jsMax (cartPrices items)

/-- The query parameters of a GET shopping-results request, each either
absent or the raw query string value. -/
structure ShoppingQuery where
  cart_id : Option String
  user_id : Option String
  radius : Option String
  store_ids : Option String
  user_location : Option String
deriving DecidableEq

/-- JS truthiness of an optional query-string parameter: absent and the empty
string are falsy. -/
def jsTruthy (o : Option String) : Bool :=
  match o with
  | none => false
  | some s => !(s == "")

/-- Outcome of the validation stage of a shopping-results request: a 400
validation rejection, a 500 produced by the catch block around a thrown
exception, or none when the handler goes on to query the data store.  The
function takes no data-store argument, so its verdict is reached before any
data-store access. -/
inductive GuardOutcome where
  | badRequest (msg : String)
  | serverError (msg : String)
deriving DecidableEq

/-- An ASCII decimal digit. -/
def isDigitChar (c : Char) : Bool :=
  decide (48 ≤ c.toNat ∧ c.toNat ≤ 57)

/-- Accumulating decimal parse of a digit string, the model of
parseInt(s, 10) combined with the isNaN rejection: canonical digit strings
parse to their value, anything else is treated as NaN. -/
def parseDigits (cs : List Char) (acc : Nat) : Option Nat :=
  match cs with
  | [] => some acc
  | c :: rest =>
    if isDigitChar c then parseDigits rest (acc * 10 + (c.toNat - 48)) else none

/-- parseInt(s, 10) followed by the isNaN check, as used on cart_id. -/
def jsParseInt (s : String) : Option Nat :=
  if s.data.isEmpty then none else parseDigits s.data 0

/-- Scan of a simple decimal literal (digits with at most one decimal point,
at least one digit): the model of the Number(s) isNaN test on a latitude or
longitude component. -/
def scanNumber : List Char → Bool → Bool → Bool
  | [], seenDigit, _ => seenDigit
  | c :: rest, seenDigit, seenDot =>
    if isDigitChar c then scanNumber rest true seenDot
    else if c = '.' ∧ seenDot = false then scanNumber rest seenDigit true
    else false

/-- Whether Number(s) yields a non-NaN value, for an optionally negated
simple decimal literal. -/
def jsNumberOkChars (cs : List Char) : Bool :=
  match cs with
  | '-' :: rest => scanNumber rest false false
  | _ => scanNumber cs false false

/-- The split of user_location on the comma, as a list of components. -/
def splitComma : List Char → List Char → List (List Char)
  | [], cur => [cur.reverse]
  | c :: rest, cur =>
    if c = ',' then cur.reverse :: splitComma rest [] else splitComma rest (c :: cur)

/-- The lat/lon validation of user_location.split(',').map(Number): the
destructured first two components must both be non-NaN numbers (a missing
second component is undefined, hence NaN). -/
def jsLocationOk (s : String) : Bool :=
  match splitComma s.data [] with
  | a :: b :: _ => jsNumberOkChars a && jsNumberOkChars b
  | _ => false

/-- The pre-query validation sequence of src/unnamed/part_003 lines 12-32 and
src/index.js lines 555-575: missing cart_id/user_id, then the
radius-without-user_location guard, then the parseInt NaN check on cart_id,
then (when user_location is present) the lat/lon NaN check. -/
def shopping_results_guard (q : ShoppingQuery) : Option GuardOutcome :=
  if !(jsTruthy q.cart_id) || !(jsTruthy q.user_id) then
    some (.badRequest "cart_id and user_id parameters are required")
  else if jsTruthy q.radius && !(jsTruthy q.user_location) then
    some (.badRequest "user_location parameter is required when radius is provided")
  else if (jsParseInt (q.cart_id.getD "")).isNone then
    some (.badRequest "Invalid cart_id parameter")
  else
    match q.user_location with
    | none => none
    | some loc =>
      if !(jsLocationOk loc) then some (.badRequest "Invalid user_location parameter")
      else none

/-- The pre-query stage of src/endpoints/shopping_results.js lines 10-21:
missing cart_id/user_id, the parseInt NaN check, and then the unconditional
user_location.split(',') — which, when user_location is absent, throws a
TypeError that the surrounding catch turns into a 500 response. -/
def shopping_results_endpoints_guard (q : ShoppingQuery) : Option GuardOutcome :=
  if !(jsTruthy q.cart_id) || !(jsTruthy q.user_id) then
    some (.badRequest "cart_id and user_id parameters are required")
  else if (jsParseInt (q.cart_id.getD "")).isNone then
    some (.badRequest "Invalid cart_id parameter")
  else
    match q.user_location with
    | none => some (.serverError "TypeError")
    | some _ => none

/-- The contribution of one cart line to the total of store t, as accumulated
by the inner forEach over the line's offers. -/
def offersTotal (t qty : Nat) (offers : List Offer) : Rat :=
  (offers.filter (fun o => o.store_id == t)).foldr
    (fun o r => o.price * (qty : Rat) + r) 0

/-- The sum of all line contributions to store t over the whole cart. -/
def itemsTotal (t : Nat) (items : List CartItem) : Rat :=
  items.foldr (fun it r => offersTotal t it.quantity it.offers + r) 0

/-- The concrete scenario of the specification: Product A (id 10) quantity 2
and Product B (id 20) quantity 1; Store X (id 1) offers A at 3.00 and B at
5.00, Store Y (id 2) offers only A at 2.50. -/
def scenarioCart : List CartItem :=
  [⟨10, 2, [⟨1, 3⟩, ⟨2, 5/2⟩]⟩, ⟨20, 1, [⟨1, 5⟩]⟩]

/-- The store ids present in the accumulator. -/
def accKeys (acc : List StoreAgg) : List Nat :=
  acc.map (fun a => a.store_id)

/-- The accumulator invariant: buckets strictly sorted by store id (unique
integer keys of the JS object, in ascending enumeration order). -/
def sortedAcc (acc : List StoreAgg) : Prop :=
  acc.Pairwise (fun a b => a.store_id < b.store_id)

theorem mem_updateAcc_keys {pid qty : Nat} {off : Offer} {acc : List StoreAgg} {a : StoreAgg}
    (ha : a ∈ updateAcc pid qty off acc) :
    a.store_id = off.store_id ∨ a.store_id ∈ accKeys acc := by
  induction acc with
  | nil =>
    simp only [updateAcc, List.mem_singleton] at ha
    subst ha; exact Or.inl rfl
  | cons s ss ih =>
    simp only [updateAcc] at ha
    by_cases h1 : off.store_id = s.store_id
    · simp only [if_pos h1, List.mem_cons] at ha
      rcases ha with ha | ha
      · subst ha; exact Or.inl h1.symm
      · exact Or.inr (by simp [accKeys]; exact Or.inr ⟨a, ha, rfl⟩)
    · by_cases h2 : off.store_id < s.store_id
      · simp only [if_neg h1, if_pos h2, List.mem_cons] at ha
        rcases ha with ha | ha | ha
        · subst ha; exact Or.inl rfl
        · subst ha; exact Or.inr (by simp [accKeys])
        · exact Or.inr (by simp [accKeys]; exact Or.inr ⟨a, ha, rfl⟩)
      · simp only [if_neg h1, if_neg h2, List.mem_cons] at ha
        rcases ha with ha | ha
        · subst ha; exact Or.inr (by simp [accKeys])
        · rcases ih ha with h | h
          · exact Or.inl h
          · exact Or.inr (by simp only [accKeys, List.map_cons, List.mem_cons]; exact Or.inr h)

theorem sortedAcc_updateAcc {pid qty : Nat} {off : Offer} {acc : List StoreAgg}
    (h : sortedAcc acc) : sortedAcc (updateAcc pid qty off acc) := by
  induction acc with
  | nil => simp [updateAcc, sortedAcc]
  | cons s ss ih =>
    rw [sortedAcc, List.pairwise_cons] at h
    obtain ⟨hb, ht⟩ := h
    simp only [updateAcc]
    by_cases h1 : off.store_id = s.store_id
    · rw [if_pos h1, sortedAcc, List.pairwise_cons]
      exact ⟨fun b hb' => hb b hb', ht⟩
    · by_cases h2 : off.store_id < s.store_id
      · rw [if_neg h1, if_pos h2, sortedAcc, List.pairwise_cons]
        constructor
        · intro b hb'
          rcases List.mem_cons.mp hb' with rfl | hb''
          · exact h2
          · exact lt_trans h2 (hb b hb'')
        · rw [List.pairwise_cons]
          exact ⟨fun b hb' => hb b hb', ht⟩
      · rw [if_neg h1, if_neg h2, sortedAcc, List.pairwise_cons]
        constructor
        · intro b hb'
          rcases mem_updateAcc_keys hb' with hkey | hkey
          · rw [hkey]
            exact Nat.lt_of_le_of_ne (Nat.le_of_not_lt h2) (fun e => h1 e.symm)
          · simp only [accKeys, List.mem_map] at hkey
            obtain ⟨c, hc, hck⟩ := hkey
            rw [← hck]
            exact hb c hc
        · exact ih ht

theorem totalAt_nil (t : Nat) : totalAt t [] = 0 := rfl

theorem totalAt_cons (t : Nat) (s : StoreAgg) (ss : List StoreAgg) :
    totalAt t (s :: ss) = if s.store_id = t then s.total else totalAt t ss := by
  by_cases h : s.store_id = t
  · simp [totalAt, findStore, List.find?, h]
  · simp only [totalAt, findStore, List.find?]
    rw [show (s.store_id == t) = false by simpa using h]
    simp [h, totalAt, findStore]

theorem totalAt_eq_zero {t : Nat} {acc : List StoreAgg}
    (h : ∀ a ∈ acc, a.store_id ≠ t) : totalAt t acc = 0 := by
  induction acc with
  | nil => rfl
  | cons s ss ih =>
    rw [totalAt_cons, if_neg (h s (List.mem_cons_self s ss))]
    exact ih (fun a ha => h a (List.mem_cons_of_mem s ha))

theorem totalAt_updateAcc {t pid qty : Nat} {off : Offer} {acc : List StoreAgg}
    (h : sortedAcc acc) :
    totalAt t (updateAcc pid qty off acc)
      = totalAt t acc + (if off.store_id = t then off.price * (qty : Rat) else 0) := by
  induction acc with
  | nil =>
    simp only [updateAcc, totalAt_cons, totalAt_nil]
    by_cases ht : off.store_id = t <;> simp [ht]
  | cons s ss ih =>
    rw [sortedAcc, List.pairwise_cons] at h
    obtain ⟨hb, htail⟩ := h
    simp only [updateAcc]
    by_cases h1 : off.store_id = s.store_id
    · rw [if_pos h1, totalAt_cons, totalAt_cons]
      by_cases hst : s.store_id = t
      · rw [if_pos hst, if_pos hst, if_pos (h1.trans hst)]
      · rw [if_neg hst, if_neg hst, if_neg (fun e => hst (h1.symm.trans e))]
        ring
    · by_cases h2 : off.store_id < s.store_id
      · rw [if_neg h1, if_pos h2, totalAt_cons]
        by_cases hot : off.store_id = t
        · rw [if_pos hot, if_pos hot]
          have hz : totalAt t (s :: ss) = 0 := by
            apply totalAt_eq_zero
            intro a ha
            rcases List.mem_cons.mp ha with rfl | ha'
            · omega
            · have := hb a ha'
              omega
          rw [hz]; ring
        · rw [if_neg hot, if_neg hot, totalAt_cons]
          ring
      · rw [if_neg h1, if_neg h2, totalAt_cons, totalAt_cons]
        by_cases hst : s.store_id = t
        · rw [if_pos hst, if_pos hst, if_neg (fun e => h1 (e.trans hst.symm))]
          ring
        · rw [if_neg hst, if_neg hst, ih htail]


theorem sortedAcc_foldOffers {pid qty : Nat} {offers : List Offer} {acc : List StoreAgg}
    (h : sortedAcc acc) :
    sortedAcc (offers.foldl (fun a off => updateAcc pid qty off a) acc) := by
  induction offers generalizing acc with
  | nil => exact h
  | cons o os ih => exact ih (sortedAcc_updateAcc h)


theorem offersTotal_cons (t qty : Nat) (o : Offer) (os : List Offer) :
    offersTotal t qty (o :: os)
      = (if o.store_id = t then o.price * (qty : Rat) else 0) + offersTotal t qty os := by
  by_cases ho : o.store_id = t
  · simp [offersTotal, List.filter_cons, ho]
  · simp [offersTotal, List.filter_cons, ho]

theorem totalAt_foldOffers {t pid qty : Nat} {offers : List Offer} {acc : List StoreAgg}
    (h : sortedAcc acc) :
    totalAt t (offers.foldl (fun a off => updateAcc pid qty off a) acc)
      = totalAt t acc + offersTotal t qty offers := by
  induction offers generalizing acc with
  | nil => simp [offersTotal]
  | cons o os ih =>
    rw [List.foldl_cons, ih (sortedAcc_updateAcc h), totalAt_updateAcc h, offersTotal_cons]
    ring

theorem sortedAcc_foldItems {items : List CartItem} {acc : List StoreAgg}
    (h : sortedAcc acc) :
    sortedAcc (items.foldl
      (fun a it => it.offers.foldl (fun a2 off => updateAcc it.product_id it.quantity off a2) a)
      acc) := by
  induction items generalizing acc with
  | nil => exact h
  | cons it its ih => exact ih (sortedAcc_foldOffers h)

theorem totalAt_foldItems {t : Nat} {items : List CartItem} {acc : List StoreAgg}
    (h : sortedAcc acc) :
    totalAt t (items.foldl
      (fun a it => it.offers.foldl (fun a2 off => updateAcc it.product_id it.quantity off a2) a)
      acc)
      = totalAt t acc + itemsTotal t items := by
  induction items generalizing acc with
  | nil => simp [itemsTotal]
  | cons it its ih =>
    rw [List.foldl_cons, ih (sortedAcc_foldOffers h), totalAt_foldOffers h]
    simp only [itemsTotal, List.foldr_cons]
    rw [← itemsTotal]
    ring

theorem totalAt_store_products (t : Nat) (items : List CartItem) :
    totalAt t (store_products items) = itemsTotal t items := by
  rw [store_products, totalAt_foldItems (by simp [sortedAcc]), totalAt_nil, zero_add]

theorem offersTotal_of_not_mem {t qty : Nat} {offers : List Offer}
    (h : ∀ o ∈ offers, o.store_id ≠ t) : offersTotal t qty offers = 0 := by
  rw [offersTotal, List.filter_eq_nil_iff.mpr (fun o ho => by simpa using h o ho)]
  rfl

theorem offersTotal_eq_spec {t qty : Nat} {offers : List Offer}
    (hnd : (offers.map (fun o => o.store_id)).Nodup) :
    offersTotal t qty offers
      = if offers.any (fun o => o.store_id == t)
        then (((offers.find? (fun o => o.store_id == t)).map Offer.price).getD 0) * (qty : Rat)
        else 0 := by
  induction offers with
  | nil => simp [offersTotal]
  | cons o os ih =>
    simp only [List.map_cons, List.nodup_cons, List.mem_map] at hnd
    obtain ⟨ho, hnd'⟩ := hnd
    rw [offersTotal_cons]
    by_cases hot : o.store_id = t
    · have hbeq : (o.store_id == t) = true := by simpa using hot
      have hz : offersTotal t qty os = 0 := by
        apply offersTotal_of_not_mem
        intro o' ho' e
        exact ho ⟨o', ho', e.trans hot.symm⟩
      rw [if_pos hot, hz, add_zero]
      simp [List.any_cons, hbeq, List.find?_cons_of_pos _ hbeq]
    · have hbeq : (o.store_id == t) = false := by simpa using hot
      rw [if_neg hot, zero_add, ih hnd']
      simp [List.any_cons, hbeq, List.find?_cons]

theorem itemsTotal_cons (t : Nat) (it : CartItem) (its : List CartItem) :
    itemsTotal t (it :: its) = offersTotal t it.quantity it.offers + itemsTotal t its := rfl

theorem specTotal_cons (t : Nat) (it : CartItem) (its : List CartItem) :
    specTotal t (it :: its)
      = if offersStore t it then priceAt t it * (it.quantity : Rat) + specTotal t its
        else specTotal t its := by
  by_cases hos : offersStore t it
  · simp [specTotal, List.filter_cons, hos]
  · simp [specTotal, List.filter_cons, hos]

theorem itemsTotal_eq_specTotal {t : Nat} {items : List CartItem}
    (hnd : ∀ it ∈ items, (it.offers.map (fun o => o.store_id)).Nodup) :
    itemsTotal t items = specTotal t items := by
  induction items with
  | nil => simp [itemsTotal, specTotal]
  | cons it its ih =>
    have hh := hnd it (List.mem_cons_self it its)
    have ht := fun x hx => hnd x (List.mem_cons_of_mem it hx)
    rw [itemsTotal_cons, specTotal_cons, offersTotal_eq_spec hh, ih ht]
    by_cases hos : offersStore t it
    · rw [if_pos hos]
      simp only [offersStore] at hos
      rw [hos, if_pos rfl, priceAt]
    · rw [if_neg hos]
      have hosf : it.offers.any (fun o => o.store_id == t) = false := by
        simpa [offersStore] using hos
      rw [hosf]
      simp

theorem memStore_updateAcc {t pid qty : Nat} {off : Offer} {acc : List StoreAgg} :
    memStore t (updateAcc pid qty off acc) ↔ t = off.store_id ∨ memStore t acc := by
  induction acc with
  | nil => simp [updateAcc, memStore, eq_comm]
  | cons s ss ih =>
    simp only [updateAcc]
    by_cases h1 : off.store_id = s.store_id
    · rw [if_pos h1]
      simp only [memStore, List.mem_cons]
      constructor
      · rintro ⟨a, (rfl | ha), hk⟩
        · exact Or.inl (by rw [← hk, h1])
        · exact Or.inr ⟨a, Or.inr ha, hk⟩
      · rintro (rfl | ⟨a, (rfl | ha), hk⟩)
        · exact ⟨_, Or.inl rfl, h1.symm⟩
        · exact ⟨_, Or.inl rfl, hk⟩
        · exact ⟨a, Or.inr ha, hk⟩
    · by_cases h2 : off.store_id < s.store_id
      · rw [if_neg h1, if_pos h2]
        simp only [memStore, List.mem_cons]
        constructor
        · rintro ⟨a, (rfl | rfl | ha), hk⟩
          · exact Or.inl hk.symm
          · exact Or.inr ⟨a, Or.inl rfl, hk⟩
          · exact Or.inr ⟨a, Or.inr ha, hk⟩
        · rintro (rfl | ⟨a, (rfl | ha), hk⟩)
          · exact ⟨_, Or.inl rfl, rfl⟩
          · exact ⟨a, Or.inr (Or.inl rfl), hk⟩
          · exact ⟨a, Or.inr (Or.inr ha), hk⟩
      · rw [if_neg h1, if_neg h2]
        simp only [memStore, List.mem_cons] at ih ⊢
        constructor
        · rintro ⟨a, (rfl | ha), hk⟩
          · exact Or.inr ⟨a, Or.inl rfl, hk⟩
          · rcases ih.mp ⟨a, ha, hk⟩ with h | ⟨b, hb, hbk⟩
            · exact Or.inl h
            · exact Or.inr ⟨b, Or.inr hb, hbk⟩
        · rintro (rfl | ⟨a, (rfl | ha), hk⟩)
          · obtain ⟨b, hb, hbk⟩ := ih.mpr (Or.inl rfl)
            exact ⟨b, Or.inr hb, hbk⟩
          · exact ⟨a, Or.inl rfl, hk⟩
          · obtain ⟨b, hb, hbk⟩ := ih.mpr (Or.inr ⟨a, ha, hk⟩)
            exact ⟨b, Or.inr hb, hbk⟩

theorem memStore_foldOffers {t pid qty : Nat} {offers : List Offer} {acc : List StoreAgg} :
    memStore t (offers.foldl (fun a off => updateAcc pid qty off a) acc)
      ↔ (∃ o ∈ offers, o.store_id = t) ∨ memStore t acc := by
  induction offers generalizing acc with
  | nil => simp
  | cons o os ih =>
    rw [List.foldl_cons, ih, memStore_updateAcc]
    simp only [List.mem_cons]
    constructor
    · rintro (⟨o', ho', rfl⟩ | rfl | h)
      · exact Or.inl ⟨o', Or.inr ho', rfl⟩
      · exact Or.inl ⟨o, Or.inl rfl, rfl⟩
      · exact Or.inr h
    · rintro (⟨o', (rfl | ho'), rfl⟩ | h)
      · exact Or.inr (Or.inl rfl)
      · exact Or.inl ⟨o', ho', rfl⟩
      · exact Or.inr (Or.inr h)

theorem memStore_store_products {t : Nat} {items : List CartItem} :
    memStore t (store_products items) ↔ ∃ it ∈ items, ∃ o ∈ it.offers, o.store_id = t := by
  rw [store_products]
  have general : ∀ (acc : List StoreAgg),
      memStore t (items.foldl
        (fun a it => it.offers.foldl (fun a2 off => updateAcc it.product_id it.quantity off a2) a)
        acc)
        ↔ (∃ it ∈ items, ∃ o ∈ it.offers, o.store_id = t) ∨ memStore t acc := by
    induction items with
    | nil => simp
    | cons it its ih =>
      intro acc
      rw [List.foldl_cons, ih, memStore_foldOffers]
      simp only [List.mem_cons]
      constructor
      · rintro (⟨x, hx, ho⟩ | ⟨o, ho, rfl⟩ | h)
        · exact Or.inl ⟨x, Or.inr hx, ho⟩
        · exact Or.inl ⟨it, Or.inl rfl, o, ho, rfl⟩
        · exact Or.inr h
      · rintro (⟨x, (rfl | hx), ho⟩ | h)
        · exact Or.inr (Or.inl ho)
        · exact Or.inl ⟨x, hx, ho⟩
        · exact Or.inr (Or.inr h)
  rw [general []]
  simp [memStore]

theorem products_ne_nil_updateAcc {pid qty : Nat} {off : Offer} {acc : List StoreAgg}
    (h : ∀ a ∈ acc, a.products ≠ []) :
    ∀ a ∈ updateAcc pid qty off acc, a.products ≠ [] := by
  induction acc with
  | nil =>
    intro a ha
    simp only [updateAcc, List.mem_singleton] at ha
    subst ha; simp
  | cons s ss ih =>
    intro a ha
    simp only [updateAcc] at ha
    by_cases h1 : off.store_id = s.store_id
    · rw [if_pos h1] at ha
      rcases List.mem_cons.mp ha with rfl | ha'
      · simp
      · exact h a (List.mem_cons_of_mem s ha')
    · by_cases h2 : off.store_id < s.store_id
      · rw [if_neg h1, if_pos h2] at ha
        rcases List.mem_cons.mp ha with rfl | ha'
        · simp
        · exact h a ha'
      · rw [if_neg h1, if_neg h2] at ha
        rcases List.mem_cons.mp ha with rfl | ha'
        · exact h _ (List.mem_cons_self _ _)
        · exact ih (fun b hb => h b (List.mem_cons_of_mem _ hb)) a ha'

theorem products_ne_nil_store_products {items : List CartItem} :
    ∀ a ∈ store_products items, a.products ≠ [] := by
  rw [store_products]
  have general : ∀ (acc : List StoreAgg), (∀ a ∈ acc, a.products ≠ []) →
      ∀ a ∈ items.foldl
        (fun ac it => it.offers.foldl (fun a2 off => updateAcc it.product_id it.quantity off a2) ac)
        acc, a.products ≠ [] := by
    induction items with
    | nil => intro acc h; exact h
    | cons it its ih =>
      intro acc h
      apply ih
      have inner : ∀ (offers : List Offer) (acc2 : List StoreAgg), (∀ a ∈ acc2, a.products ≠ []) →
          ∀ a ∈ offers.foldl
            (fun a2 off => updateAcc it.product_id it.quantity off a2) acc2, a.products ≠ [] := by
        intro offers
        induction offers with
        | nil => intro acc2 h2; exact h2
        | cons o os ih2 =>
          intro acc2 h2
          exact ih2 _ (products_ne_nil_updateAcc h2)
      exact inner it.offers acc h
  exact general [] (by simp)


/-- C1: for every cart (finite list of cart lines with positive quantities
and per-line store-offer lists with one offer per store), and every store s
appearing in the store_products aggregation, the recorded total for s equals
the sum of offer-price times line-quantity over exactly the cart lines for
which s has an offer. -/
theorem store_products_total_correct (items : List CartItem) (s : Nat)
    (hqty : ∀ it ∈ items, 1 ≤ it.quantity)
    (hkeys : ∀ it ∈ items, (it.offers.map (fun o => o.store_id)).Nodup)
    (hmem : memStore s (store_products items)) :
    totalAt s (store_products items) = specTotal s items := by
  rw [totalAt_store_products, itemsTotal_eq_specTotal hkeys]

/-- Witness for C1: the specification's concrete cart, evaluated at store X
(id 1), whose total is 2 * 3.00 + 1 * 5.00 = 11.00. -/
theorem store_products_total_correct_witness :
    (∀ it ∈ scenarioCart, 1 ≤ it.quantity)
    ∧ (∀ it ∈ scenarioCart, (it.offers.map (fun o => o.store_id)).Nodup)
    ∧ memStore 1 (store_products scenarioCart)
    ∧ totalAt 1 (store_products scenarioCart) = specTotal 1 scenarioCart :=
  ⟨by decide, by decide, by decide,
    store_products_total_correct scenarioCart 1 (by decide) (by decide) (by decide)⟩

/-- C2: every store in the aggregation output has at least one matched cart
line; a store appears only when some cart line has an offer at it; and the
empty cart yields the empty aggregation. -/
theorem store_products_no_phantom (items : List CartItem) (s : Nat)
    (hmem : memStore s (store_products items)) :
    (∀ a ∈ store_products items, 1 ≤ a.products.length)
    ∧ (∃ it ∈ items, offersStore s it = true)
    ∧ store_products [] = [] := by
  refine ⟨?_, ?_, rfl⟩
  · intro a ha
    exact List.length_pos.mpr (products_ne_nil_store_products a ha)
  · obtain ⟨it, hit, o, ho, rfl⟩ := memStore_store_products.mp hmem
    refine ⟨it, hit, ?_⟩
    rw [offersStore, List.any_eq_true]
    exact ⟨o, ho, by simp⟩

/-- Witness for C2: store X (id 1) appears in the aggregation of the concrete
scenario cart. -/
theorem store_products_no_phantom_witness :
    memStore 1 (store_products scenarioCart)
    ∧ ((∀ a ∈ store_products scenarioCart, 1 ≤ a.products.length)
      ∧ (∃ it ∈ scenarioCart, offersStore 1 it = true)
      ∧ store_products [] = []) :=
  ⟨by decide, store_products_no_phantom scenarioCart 1 (by decide)⟩

theorem insertByTotal_perm (x : StoreAgg) (l : List StoreAgg) :
    (insertByTotal x l).Perm (x :: l) := by
  induction l with
  | nil => exact List.Perm.refl _
  | cons y ys ih =>
    simp only [insertByTotal]
    by_cases h : y.total < x.total
    · rw [if_pos h]
      exact (ih.cons y).trans (List.Perm.swap x y ys)
    · rw [if_neg h]

theorem sorted_stores_perm (l : List StoreAgg) : (sorted_stores l).Perm l := by
  induction l with
  | nil => exact List.Perm.refl _
  | cons x xs ih => exact (insertByTotal_perm x (sorted_stores xs)).trans (ih.cons x)

theorem pairwise_insertByTotal {x : StoreAgg} {l : List StoreAgg}
    (h : l.Pairwise (fun a b => a.total ≤ b.total)) :
    (insertByTotal x l).Pairwise (fun a b => a.total ≤ b.total) := by
  induction l with
  | nil => simp [insertByTotal]
  | cons y ys ih =>
    rw [List.pairwise_cons] at h
    obtain ⟨hb, ht⟩ := h
    simp only [insertByTotal]
    by_cases hlt : y.total < x.total
    · rw [if_pos hlt, List.pairwise_cons]
      refine ⟨?_, ih ht⟩
      intro b hbmem
      rcases List.mem_cons.mp ((insertByTotal_perm x ys).mem_iff.mp hbmem) with rfl | hbm
      · exact le_of_lt hlt
      · exact hb b hbm
    · rw [if_neg hlt, List.pairwise_cons]
      constructor
      · intro b hbmem
        rcases List.mem_cons.mp hbmem with rfl | hbm
        · exact le_of_not_lt hlt
        · exact le_trans (le_of_not_lt hlt) (hb b hbm)
      · rw [List.pairwise_cons]
        exact ⟨hb, ht⟩

theorem filter_insertByTotal (x : StoreAgg) (l : List StoreAgg) (t : Rat) :
    (insertByTotal x l).filter (fun a => a.total == t)
      = if x.total = t then x :: l.filter (fun a => a.total == t)
        else l.filter (fun a => a.total == t) := by
  induction l with
  | nil =>
    by_cases hx : x.total = t
    · simp [insertByTotal, List.filter_cons, hx]
    · simp [insertByTotal, List.filter_cons, hx]
  | cons y ys ih =>
    simp only [insertByTotal]
    by_cases hlt : y.total < x.total
    · rw [if_pos hlt]
      by_cases hx : x.total = t
      · have hy : (y.total == t) = false := by
          simp only [beq_eq_false_iff_ne, ne_eq]
          intro e
          rw [e, ← hx] at hlt
          exact lt_irrefl _ hlt
        rw [List.filter_cons, hy]
        simp only [Bool.false_eq_true, if_false]
        rw [ih, if_pos hx, List.filter_cons, hy]
        simp only [Bool.false_eq_true, if_false]
        rw [if_pos hx]
      · rw [List.filter_cons, ih, if_neg hx, List.filter_cons]
        rw [if_neg hx]
    · rw [if_neg hlt]
      by_cases hx : x.total = t
      · have hxb : (x.total == t) = true := by simpa using hx
        rw [List.filter_cons, hxb, if_pos hx]
        simp
      · have hxb : (x.total == t) = false := by simpa using hx
        rw [List.filter_cons, hxb, if_neg hx]
        simp

theorem filter_sorted_stores (l : List StoreAgg) (t : Rat) :
    (sorted_stores l).filter (fun a => a.total == t) = l.filter (fun a => a.total == t) := by
  induction l with
  | nil => rfl
  | cons x xs ih =>
    simp only [sorted_stores]
    rw [filter_insertByTotal]
    by_cases hx : x.total = t
    · have hxb : (x.total == t) = true := by simpa using hx
      rw [if_pos hx, ih, List.filter_cons, hxb]
      simp
    · have hxb : (x.total == t) = false := by simpa using hx
      rw [if_neg hx, ih, List.filter_cons, hxb]
      simp

/-- C3 (amended): the result of the sort step is sorted ascending by total
price, is a permutation of its input, and is stable: for every total value,
the subsequence of aggregates with that total is exactly the input
subsequence, in input order.  Being a pure function of its input, the sort
yields identical output on identical input; the source comparator imposes no
store-id tie-break. -/
theorem sorted_stores_sorted_stable (l : List StoreAgg) :
    (sorted_stores l).Pairwise (fun a b => a.total ≤ b.total)
    ∧ (sorted_stores l).Perm l
    ∧ (∀ t : Rat, (sorted_stores l).filter (fun a => a.total == t)
        = l.filter (fun a => a.total == t)) := by
  refine ⟨?_, sorted_stores_perm l, fun t => filter_sorted_stores l t⟩
  induction l with
  | nil => simp [sorted_stores]
  | cons x xs ih => exact pairwise_insertByTotal ih

/-- C3 counterexample: on the two-element input with equal totals 5 and store
ids 2 then 1, the sort keeps the input order, so the aggregate with the
larger store id comes first and the claimed store-id tie-break fails. -/
theorem sorted_stores_tiebreak_counterexample :
    sorted_stores [⟨2, [⟨10, 1, 1⟩], 5⟩, ⟨1, [⟨10, 1, 1⟩], 5⟩]
      = [⟨2, [⟨10, 1, 1⟩], 5⟩, ⟨1, [⟨10, 1, 1⟩], 5⟩]
    ∧ ¬ (sorted_stores [⟨2, [⟨10, 1, 1⟩], 5⟩, ⟨1, [⟨10, 1, 1⟩], 5⟩]).Pairwise
        (fun a b => a.total ≤ b.total ∧ (a.total = b.total → a.store_id ≤ b.store_id)) := by
  constructor
  · decide
  · decide

theorem mem_filtered_stores (items : List CartItem) (aggs : List StoreAgg) (st : StoreAgg) :
    st ∈ filtered_stores items aggs
      ↔ st ∈ aggs ∧ ∀ pid ∈ items.map (fun it => it.product_id),
          pid ∈ st.products.map (fun p => p.product_id) := by
  simp [filtered_stores, List.mem_filter, List.all_eq_true]

/-- C6: a store aggregate survives the completeness filter exactly when the
set of product ids of its matched lines contains every product id of the
cart; on the concrete scenario cart, the completeness-required pipeline
result is exactly store X (id 1) with total 11. -/
theorem filtered_stores_superset_spec :
    (∀ (items : List CartItem) (aggs : List StoreAgg) (st : StoreAgg),
        st ∈ filtered_stores items aggs
          ↔ st ∈ aggs ∧ ∀ pid ∈ items.map (fun it => it.product_id),
              pid ∈ st.products.map (fun p => p.product_id))
    ∧ sorted_stores (non_empty_stores (filtered_stores scenarioCart (store_products scenarioCart)))
        = [⟨1, [⟨10, 3, 2⟩, ⟨20, 5, 1⟩], 11⟩]
    ∧ (⟨1, [⟨10, 3, 2⟩, ⟨20, 5, 1⟩], 11⟩ : StoreAgg).total = 11 := by
  refine ⟨mem_filtered_stores, ?_, rfl⟩
  norm_num [scenarioCart, store_products, updateAcc, filtered_stores, non_empty_stores,
    sorted_stores, insertByTotal, List.filter_cons]

theorem atan2_nonneg {y x : Real} (hy : 0 ≤ y) (hx : 0 ≤ x) : 0 ≤ atan2 y x := by
  rcases eq_or_lt_of_le hx with hx0 | hxpos
  · have hxx : x = 0 := hx0.symm
    subst hxx
    rw [atan2, if_neg (lt_irrefl 0), if_neg (lt_irrefl 0)]
    rcases eq_or_lt_of_le hy with hy0 | hypos
    · have hyy : y = 0 := hy0.symm
      subst hyy
      simp
    · rw [if_pos hypos]
      positivity
  · rw [atan2, if_pos hxpos, ← Real.arctan_zero]
    exact Real.arctan_strictMono.monotone (div_nonneg hy (le_of_lt hxpos))

theorem hav_a_symm (lat1 lon1 lat2 lon2 : Real) :
    hav_a lat1 lon1 lat2 lon2 = hav_a lat2 lon2 lat1 lon1 := by
  have key : ∀ u v : Real,
      Real.sin ((u - v) * Real.pi / 180 / 2) = -Real.sin ((v - u) * Real.pi / 180 / 2) := by
    intro u v
    have h : (u - v) * Real.pi / 180 / 2 = -((v - u) * Real.pi / 180 / 2) := by ring
    rw [h, Real.sin_neg]
  rw [hav_a, hav_a, key lat2 lat1, key lon2 lon1]
  ring

theorem calculateDistance_self (lat lon : Real) : calculateDistance lat lon lat lon = 0 := by
  have ha : hav_a lat lon lat lon = 0 := by
    simp [hav_a, sub_self]
  rw [calculateDistance, ha, Real.sqrt_zero, sub_zero, Real.sqrt_one, atan2, if_pos one_pos]
  norm_num [Real.arctan_zero]

theorem calculateDistance_nonneg (lat1 lon1 lat2 lon2 : Real) :
    0 ≤ calculateDistance lat1 lon1 lat2 lon2 := by
  rw [calculateDistance]
  have h := atan2_nonneg (Real.sqrt_nonneg (hav_a lat1 lon1 lat2 lon2))
    (Real.sqrt_nonneg (1 - hav_a lat1 lon1 lat2 lon2))
  have h2 : (0 : Real) ≤ 2 * atan2 (Real.sqrt (hav_a lat1 lon1 lat2 lon2))
      (Real.sqrt (1 - hav_a lat1 lon1 lat2 lon2)) := by linarith
  linarith

/-- C5: the haversine calculateDistance is symmetric in its two coordinate
pairs, returns zero when the two points coincide, and is non-negative for
all real inputs. -/
theorem calculateDistance_symm_zero_nonneg (lat1 lon1 lat2 lon2 : Real) :
    calculateDistance lat1 lon1 lat2 lon2 = calculateDistance lat2 lon2 lat1 lon1
    ∧ calculateDistance lat1 lon1 lat1 lon1 = 0
    ∧ 0 ≤ calculateDistance lat1 lon1 lat2 lon2 := by
  refine ⟨?_, calculateDistance_self lat1 lon1, calculateDistance_nonneg lat1 lon1 lat2 lon2⟩
  rw [calculateDistance, calculateDistance, hav_a_symm]

theorem mem_cart_items_upsert (pid : Nat) (q : Int) (lines : List CartLineRow) :
    (⟨pid, q⟩ : CartLineRow) ∈ cart_items_upsert pid q lines := by
  rw [cart_items_upsert]
  by_cases h : lines.any (fun l => l.product_id == pid)
  · rw [if_pos h]
    obtain ⟨l, hl, hlp⟩ := List.any_eq_true.mp h
    have hfl : (fun l => if l.product_id == pid then ({ l with quantity := q } : CartLineRow)
        else l) l = ⟨pid, q⟩ := by
      rcases l with ⟨lpid, lq⟩
      simp only [beq_iff_eq] at hlp
      simp [hlp]
    rw [← hfl]
    exact List.mem_map_of_mem _ hl
  · rw [if_neg h]
    simp

theorem map_product_id_upsert (pid : Nat) (q : Int) (lines : List CartLineRow)
    (h : lines.any (fun l => l.product_id == pid) = true) :
    (cart_items_upsert pid q lines).map (fun l => l.product_id)
      = lines.map (fun l => l.product_id) := by
  rw [cart_items_upsert, if_pos h, List.map_map]
  apply List.map_congr_left
  intro l _
  by_cases hl : l.product_id = pid
  · simp [hl]
  · simp [hl]

/-- C10: on a cart with no line items the cart.js / part_000 / part_009
snapshot paths produce min_price = Infinity and max_price = -Infinity, while
the part_007 getCartWithDetails guard produces 0 for both. -/
theorem empty_cart_min_max_prices :
    snapshot_min_price [] = JsNum.posInf
    ∧ snapshot_max_price [] = JsNum.negInf
    ∧ part007_min_price [] = JsNum.num 0
    ∧ part007_max_price [] = JsNum.num 0 :=
  ⟨rfl, rfl, rfl, rfl⟩

/-- C7 counterexample: a cart update with quantity -3 for an existing product
is not rejected: it is answered with a 200 response and the line is stored
with quantity -3, below 1. -/
theorem cart_post_negative_counterexample :
    (cart_post (some "u1") (some 10) (some (-3)) [10] ⟨0, []⟩).1 = .ok [⟨10, -3⟩]
    ∧ (cart_post (some "u1") (some 10) (some (-3)) [10] ⟨0, []⟩).2.lines = [⟨10, -3⟩]
    ∧ (-3 : Int) < 0 := by
  decide

/-- C7 (amended): a cart-update request with strictly negative quantity
passes the validation (which only checks absence and falsiness), is upserted
as-is, and the stored cart then contains the line with the negative
quantity. -/
theorem cart_post_negative_accepted (catalog : List Nat) (s : CartState) (u : String)
    (pid : Nat) (q : Int) (hu : u ≠ "") (hpid : pid ≠ 0) (hcat : pid ∈ catalog) (hq : q < 0) :
    (cart_post (some u) (some pid) (some q) catalog s).1 = .ok (cart_items_upsert pid q s.lines)
    ∧ (⟨pid, q⟩ : CartLineRow) ∈ (cart_post (some u) (some pid) (some q) catalog s).2.lines := by
  have hq0 : (q == 0) = false := by
    simp only [beq_eq_false_iff_ne, ne_eq]
    omega
  have hval : (u == "" || pid == 0) = false := by
    simp [hu, hpid]
  have hcontains : catalog.contains pid = true := List.elem_eq_true_of_mem hcat
  have hred : cart_post (some u) (some pid) (some q) catalog s
      = (.ok (cart_items_upsert pid q s.lines),
          { s with lines := cart_items_upsert pid q s.lines }) := by
    simp [cart_post, hval, hcontains, hq0, hcat]
  rw [hred]
  exact ⟨rfl, mem_cart_items_upsert pid q s.lines⟩

/-- Witness for amended C7: user u1 sets product 10 to quantity -3 on an
empty cart; the request is answered with 200 and the line is stored with
quantity -3. -/
theorem cart_post_negative_accepted_witness :
    ("u1" ≠ "" ∧ (10 : Nat) ≠ 0 ∧ (10 : Nat) ∈ [10] ∧ (-3 : Int) < 0)
    ∧ ((cart_post (some "u1") (some 10) (some (-3)) [10] ⟨0, []⟩).1
        = .ok (cart_items_upsert 10 (-3) ([] : List CartLineRow))
      ∧ (⟨10, -3⟩ : CartLineRow)
          ∈ (cart_post (some "u1") (some 10) (some (-3)) [10] ⟨0, []⟩).2.lines) :=
  ⟨⟨by decide, by decide, by decide, by decide⟩,
    cart_post_negative_accepted [10] ⟨0, []⟩ "u1" 10 (-3)
      (by decide) (by decide) (by decide) (by decide)⟩

/-- C8: applying quantity 0 when the cart has no line for the product is a
no-op: the request succeeds, the stored state is unchanged, and the returned
line rows equal the ones a plain cart read returns; when lines for the
product exist the update deletes exactly those and leaves every other line
in place. -/
theorem cart_post_zero_spec (catalog : List Nat) (s : CartState) (u : String) (pid : Nat)
    (hu : u ≠ "") (hpid : pid ≠ 0) (hcat : pid ∈ catalog) :
    (pid ∉ s.lines.map (fun l => l.product_id) →
        cart_post (some u) (some pid) (some 0) catalog s = (.ok s.lines, s)
        ∧ cart_get (some u) s = .ok s.lines)
    ∧ (∀ l : CartLineRow,
        l ∈ (cart_post (some u) (some pid) (some 0) catalog s).2.lines
          ↔ l ∈ s.lines ∧ l.product_id ≠ pid) := by
  have hval : (u == "" || pid == 0) = false := by
    simp [hu, hpid]
  have hcontains : catalog.contains pid = true := List.elem_eq_true_of_mem hcat
  have hred : cart_post (some u) (some pid) (some 0) catalog s
      = (.ok (cart_items_deleteMany pid s.lines),
          { s with lines := cart_items_deleteMany pid s.lines }) := by
    simp [cart_post, hval, hcontains, hcat]
  constructor
  · intro habs
    have hid : cart_items_deleteMany pid s.lines = s.lines := by
      rw [cart_items_deleteMany]
      apply List.filter_eq_self.mpr
      intro l hl
      simp only [Bool.not_eq_true', beq_eq_false_iff_ne, ne_eq]
      intro e
      exact habs (e ▸ List.mem_map_of_mem _ hl)
    rw [hred, hid]
    exact ⟨rfl, by simp [cart_get, hu]⟩
  · intro l
    rw [hred]
    simp [cart_items_deleteMany, List.mem_filter]

/-- Witness for C8: user u1 applies quantity 0 to product 10 on a cart
holding only a line for product 20; the stored state is untouched and the
response equals a plain read. -/
theorem cart_post_zero_spec_witness :
    ("u1" ≠ "" ∧ (10 : Nat) ≠ 0 ∧ (10 : Nat) ∈ [10, 20])
    ∧ (((10 : Nat) ∉ ([⟨20, 3⟩] : List CartLineRow).map (fun l => l.product_id) →
        cart_post (some "u1") (some 10) (some 0) [10, 20] ⟨1, [⟨20, 3⟩]⟩
          = (.ok [⟨20, 3⟩], ⟨1, [⟨20, 3⟩]⟩)
        ∧ cart_get (some "u1") ⟨1, [⟨20, 3⟩]⟩ = .ok [⟨20, 3⟩])
      ∧ (∀ l : CartLineRow,
          l ∈ (cart_post (some "u1") (some 10) (some 0) [10, 20] ⟨1, [⟨20, 3⟩]⟩).2.lines
            ↔ l ∈ ([⟨20, 3⟩] : List CartLineRow) ∧ l.product_id ≠ 10)) :=
  ⟨⟨by decide, by decide, by decide⟩,
    cart_post_zero_spec [10, 20] ⟨1, [⟨20, 3⟩]⟩ "u1" 10 (by decide) (by decide) (by decide)⟩

/-- C9 counterexample: on the endpoints cart.js mutation path, setting an
existing product (quantity 2) to 0 deletes the row but leaves the cart
header's stored count at its old value 1 while the cart now has 0 rows, so
the persisted distinct-line count does not match the rows after the
mutation. -/
theorem cart_post_no_recount_counterexample :
    (cart_post (some "u1") (some 10) (some 0) [10] ⟨1, [⟨10, 2⟩]⟩).2.headerQuantity = 1
    ∧ ((cart_post (some "u1") (some 10) (some 0) [10] ⟨1, [⟨10, 2⟩]⟩).2.lines).length = 0
    ∧ (cart_post (some "u1") (some 10) (some 0) [10] ⟨1, [⟨10, 2⟩]⟩).2.headerQuantity
        ≠ ((cart_post (some "u1") (some 10) (some 0) [10] ⟨1, [⟨10, 2⟩]⟩).2.lines).length := by
  decide

theorem nodup_product_id_updateCartItem {s : CartState} {pid : Nat} {q : Int}
    (hnd : (s.lines.map (fun l => l.product_id)).Nodup) :
    ((updateCartItem pid q s).lines.map (fun l => l.product_id)).Nodup := by
  show ((if q == 0 then cart_items_deleteMany pid s.lines
      else cart_items_upsert pid q s.lines).map (fun l => l.product_id)).Nodup
  by_cases hq : (q == 0) = true
  · simp only [hq, if_true]
    rw [cart_items_deleteMany]
    exact hnd.sublist ((List.filter_sublist s.lines).map (fun l : CartLineRow => l.product_id))
  · have hq' : (q == 0) = false := by
      cases hqb : (q == 0) with
      | true => exact absurd hqb hq
      | false => rfl
    simp only [hq', Bool.false_eq_true, if_false]
    rw [cart_items_upsert]
    by_cases hany : s.lines.any (fun l => l.product_id == pid) = true
    · rw [if_pos hany, List.map_map]
      have hcomp : ((fun l : CartLineRow => l.product_id) ∘ fun l : CartLineRow =>
          if l.product_id == pid then ({ l with quantity := q } : CartLineRow) else l)
          = fun l : CartLineRow => l.product_id := by
        funext l
        by_cases hl : l.product_id = pid
        · simp [Function.comp, hl]
        · simp [Function.comp, hl]
      rw [hcomp]
      exact hnd
    · rw [if_neg hany, List.map_append]
      rw [List.nodup_append]
      refine ⟨hnd, by simp, ?_⟩
      intro a ha hb
      simp only [List.map_cons, List.map_nil, List.mem_singleton] at hb
      subst hb
      apply hany
      rw [List.any_eq_true]
      obtain ⟨l, hl, hlp⟩ := List.mem_map.mp ha
      exact ⟨l, hl, by simp [hlp]⟩

/-- C9 (amended): on the part_007 transaction path, after every mutation the
persisted cart-header count equals the number of cart_items rows, row
product ids stay unique (so the row count is the distinct-line count), and
the concrete 2-to-0 update drops the persisted count from 1 to 0; the
endpoints cart.js mutation path performs no recount and leaves the header
untouched. -/
theorem updateCartItem_recount (s : CartState) (pid : Nat) (q : Int)
    (hnd : (s.lines.map (fun l => l.product_id)).Nodup) :
    (updateCartItem pid q s).headerQuantity = (updateCartItem pid q s).lines.length
    ∧ ((updateCartItem pid q s).lines.map (fun l => l.product_id)).Nodup
    ∧ updateCartItem 10 0 ⟨1, [⟨10, 2⟩]⟩ = ⟨0, []⟩ :=
  ⟨rfl, nodup_product_id_updateCartItem hnd, by decide⟩

/-- Witness for amended C9: the concrete 2-to-0 update on a one-line cart
with a correct header count of 1. -/
theorem updateCartItem_recount_witness :
    (([⟨10, 2⟩] : List CartLineRow).map (fun l => l.product_id)).Nodup
    ∧ ((updateCartItem 10 0 ⟨1, [⟨10, 2⟩]⟩).headerQuantity
        = (updateCartItem 10 0 ⟨1, [⟨10, 2⟩]⟩).lines.length
      ∧ ((updateCartItem 10 0 ⟨1, [⟨10, 2⟩]⟩).lines.map (fun l => l.product_id)).Nodup
      ∧ updateCartItem 10 0 ⟨1, [⟨10, 2⟩]⟩ = ⟨0, []⟩) :=
  ⟨by decide, updateCartItem_recount ⟨1, [⟨10, 2⟩]⟩ 10 0 (by decide)⟩

/-- C4, evaluated at the failing request cart_id=1, user_id=u1, radius=10,
no user_location: the index.js / part_003 validation rejects it with the 400
location-required message before any data-store access, while the
src/endpoints/shopping_results.js variant instead hits the unconditional
user_location.split and its catch block answers with a 500 server error,
which is not a validation rejection. -/
theorem shopping_radius_without_location_divergence :
    shopping_results_guard ⟨some "1", some "u1", some "10", none, none⟩
      = some (.badRequest "user_location parameter is required when radius is provided")
    ∧ shopping_results_endpoints_guard ⟨some "1", some "u1", some "10", none, none⟩
      = some (.serverError "TypeError")
    ∧ (∀ msg : String, GuardOutcome.serverError "TypeError" ≠ GuardOutcome.badRequest msg) := by
  refine ⟨by decide, by decide, ?_⟩
  intro msg h
  exact GuardOutcome.noConfusion h
